import Mathlib

/-!
Verification of the animation engine in `src/components/AnimatedBackground.tsx`.

The engine is embedded shallowly over `ℚ`: JavaScript numeric expressions are
translated to exact rational arithmetic, `Math.floor`/`Math.ceil` to `⌊·⌋`/`⌈·⌉`,
and the 32-bit coercions performed by JavaScript bitwise operators are made
explicit.  The irrational library functions (`Math.cos`, `Math.sin`,
`Math.hypot`, `Math.atan2`) cannot return exact rationals; they are abstracted
as an oracle parameter (`MathOracle`), constrained in a theorem only by
properties the real functions satisfy (for example `|cos t| ≤ 1`,
`hypot 0 0 = 0`).  Mutable component state (the noise tables, the grid of
points, the mouse state, the frame clock) is passed explicitly.
-/

/-- The gradient-vector class `Grad` (lines 3–15): a 3-component direction of
which only the first two components participate in 2-D dot products. -/
structure Grad where
  x : ℚ
  y : ℚ
  z : ℚ
deriving DecidableEq

/-- `Grad.dot2` (lines 12–14). -/
def Grad.dot2 (g : Grad) (x y : ℚ) : ℚ := g.x * x + g.y * y

/-- The fixed list `grad3` of 12 canonical gradient directions (lines 24–28). -/
def grad3 : List Grad :=
  [⟨1, 1, 0⟩, ⟨-1, 1, 0⟩, ⟨1, -1, 0⟩, ⟨-1, -1, 0⟩,
   ⟨1, 0, 1⟩, ⟨-1, 0, 1⟩, ⟨1, 0, -1⟩, ⟨-1, 0, -1⟩,
   ⟨0, 1, 1⟩, ⟨0, -1, 1⟩, ⟨0, 1, -1⟩, ⟨0, -1, -1⟩]

/-- The base permutation array `this.p` (lines 29–41): 256 byte values. -/
def pTable : List ℕ :=
  [151, 160, 137, 91, 90, 15, 131, 13, 201, 95, 96, 53, 194, 233, 7, 225, 140, 36, 103, 30,
   69, 142, 8, 99, 37, 240, 21, 10, 23, 190, 6, 148, 247, 120, 234, 75, 0, 26, 197, 62, 94, 252, 219,
   203, 117, 35, 11, 32, 57, 177, 33, 88, 237, 149, 56, 87, 174, 20, 125, 136, 171, 168, 68, 175, 74,
   165, 71, 134, 139, 48, 27, 166, 77, 146, 158, 231, 83, 111, 229, 122, 60, 211, 133, 230, 220, 105,
   92, 41, 55, 46, 245, 40, 244, 102, 143, 54, 65, 25, 63, 161, 1, 216, 80, 73, 209, 76, 132, 187, 208,
   89, 18, 169, 200, 196, 135, 130, 116, 188, 159, 86, 164, 100, 109, 198, 173, 186, 3, 64, 52, 217,
   226, 250, 124, 123, 5, 202, 38, 147, 118, 126, 255, 82, 85, 212, 207, 206, 59, 227, 47, 16, 58, 17,
   182, 189, 28, 42, 223, 183, 170, 213, 119, 248, 152, 2, 44, 154, 163, 70, 221, 153, 101, 155, 167,
   43, 172, 9, 129, 22, 39, 253, 19, 98, 108, 110, 79, 113, 224, 232, 178, 185, 112, 104, 218, 246,
   97, 228, 251, 34, 242, 193, 238, 210, 144, 12, 191, 179, 162, 241, 81, 51, 145, 235, 249, 14, 239,
   107, 49, 192, 214, 31, 181, 199, 106, 157, 184, 84, 204, 176, 115, 121, 50, 45, 127, 4, 150, 254,
   138, 236, 205, 93, 222, 114, 67, 29, 24, 72, 243, 141, 128, 195, 78, 66, 215, 61, 156, 180]

/-- The mutable noise tables (`this.perm`, `this.gradP`, lines 42–43): the
512-entry arrays are modelled as total functions; indices at least 512 are
outside the arrays. -/
structure NoiseState where
  perm : ℕ → ℕ
  gradP : ℕ → Grad

/-- JavaScript ToInt32: wrap an integer into the signed 32-bit range, as every
JS bitwise operator does to its operands. -/
def toInt32 (n : ℤ) : ℤ := (n + 2 ^ 31) % 2 ^ 32 - 2 ^ 31

/-- The seed preprocessing of `Noise.seed` (lines 48–50): fractional seeds are
scaled by 65536, the seed is floored, and a seed below 256 is spread to two
bytes by `seed |= seed << 8` (32-bit bitwise or / shift). -/
def mixSeed (seed : ℚ) : ℤ :=
  let s1 : ℚ := if 0 < seed ∧ seed < 1 then seed * 65536 else seed
  let s2 : ℤ := ⌊s1⌋
  if s2 < 256 then Int.lor (toInt32 s2) (toInt32 (s2 * 2 ^ 8)) else s2

/-- JS `(seed & 255)` (line 52), the byte used at odd indices. -/
def seedByteLow (s : ℤ) : ℤ := toInt32 s % 256

/-- JS `((seed >> 8) & 255)` (line 52), the byte used at even indices;
`>>` is the arithmetic (floor) shift on the 32-bit value. -/
def seedByteHigh (s : ℤ) : ℤ := (toInt32 s).fdiv (2 ^ 8) % 256

/-- The byte value `v` written by iteration `i` of the loop in `Noise.seed`
(lines 51–52): `(i & 1) ? p[i] ^ (seed & 255) : p[i] ^ ((seed >> 8) & 255)`. -/
def seedPermVal (seed : ℚ) (i : ℕ) : ℕ :=
  let s := mixSeed seed
  let b := if i % 2 = 1 then seedByteLow s else seedByteHigh s
  Nat.xor (pTable.getD i 0) b.toNat

/-- `Noise.seed` (lines 47–56).  The loop writes `perm[i] = perm[i + 256] = v`
and `gradP[i] = gradP[i + 256] = grad3[v % 12]` for `i < 256`, i.e. it
overwrites exactly the indices below 512 — the whole of both arrays; positions
outside the arrays keep the prior state. -/
def Noise.seed (st : NoiseState) (s : ℚ) : NoiseState where
  perm := fun i => if i < 512 then seedPermVal s (i % 256) else st.perm i
  gradP := fun i =>
    if i < 512 then grad3.getD (seedPermVal s (i % 256) % 12) ⟨0, 0, 0⟩ else st.gradP i

/-- `fade` (lines 58–60). -/
def fade (t : ℚ) : ℚ := t * t * t * (t * (t * 6 - 15) + 10)

/-- `lerp` (lines 62–64). -/
def lerp (a b t : ℚ) : ℚ := (1 - t) * a + t * b

/-- JS `(n &= 255)` applied to an integer cell coordinate (line 68): the low
byte of the 32-bit value, in `0..255`. -/
def wrap255 (n : ℤ) : ℕ := (toInt32 n % 256).toNat

/-- `Noise.perlin2` (lines 66–79): 2-D gradient noise. `X`/`Y` are the wrapped
cell coordinates, `xf`/`yf` the offsets of the input inside its cell. -/
def Noise.perlin2 (st : NoiseState) (x y : ℚ) : ℚ :=
  let X := wrap255 ⌊x⌋
  let Y := wrap255 ⌊y⌋
  let xf : ℚ := x - ⌊x⌋
  let yf : ℚ := y - ⌊y⌋
  let n00 := (st.gradP (X + st.perm Y)).dot2 xf yf
  let n01 := (st.gradP (X + st.perm (Y + 1))).dot2 xf (yf - 1)
  let n10 := (st.gradP (X + 1 + st.perm Y)).dot2 (xf - 1) yf
  let n11 := (st.gradP (X + 1 + st.perm (Y + 1))).dot2 (xf - 1) (yf - 1)
  let u := fade xf
  lerp (lerp n00 n10 u) (lerp n01 n11 u) (fade yf)

/-- A wave displacement `{ x, y }` (the `wave` field of a point, line 85). -/
structure Vec2 where
  x : ℚ
  y : ℚ
deriving DecidableEq

/-- The `cursor` field of a point (line 86): spring offset and velocity. -/
structure CursorState where
  x : ℚ
  y : ℚ
  vx : ℚ
  vy : ℚ
deriving DecidableEq

/-- A lattice node (interface `Point`, lines 82–87): `x`/`y` are the base
position fixed at grid construction. -/
structure Point where
  x : ℚ
  y : ℚ
  wave : Vec2
  cursor : CursorState
deriving DecidableEq

/-- The default used when reading outside a list of points. -/
def defaultPoint : Point := ⟨0, 0, ⟨0, 0⟩, ⟨0, 0, 0, 0⟩⟩

/-- The pointer state (interface `MouseState`, lines 89–100). -/
structure MouseState where
  x : ℚ
  y : ℚ
  lx : ℚ
  ly : ℚ
  sx : ℚ
  sy : ℚ
  v : ℚ
  vs : ℚ
  a : ℚ
  set : Bool
deriving DecidableEq

/-- The initial value of `mouseRef` (lines 117–119). -/
def initialMouse : MouseState := ⟨-10, 0, 0, 0, 0, 0, 0, 0, 0, false⟩

/-- The tunable constants (lines 123–136); `lineColor` is presentational and
not part of the numeric model. -/
structure Config where
  waveSpeedX : ℚ
  waveSpeedY : ℚ
  waveAmpX : ℚ
  waveAmpY : ℚ
  friction : ℚ
  tension : ℚ
  maxCursorMove : ℚ
  xGap : ℚ
  yGap : ℚ
  autoWaveIntensity : ℚ
  autoWaveSpeed : ℚ

/-- The concrete configuration value of the component (lines 123–136). -/
def config : Config where
  waveSpeedX := 0.008
  waveSpeedY := 0.005
  waveAmpX := 20
  waveAmpY := 15
  friction := 0.94
  tension := 0.003
  maxCursorMove := 60
  xGap := 16
  yGap := 40
  autoWaveIntensity := 0.8
  autoWaveSpeed := 0.001

/-- `setLines` (lines 156–179), parameterized over the surface size and the
two gaps as the spec's `Grid.rebuild(w, h, gx, gy)`.  The JS loops
`for (i = 0; i <= totalLines; i++)` and `for (j = 0; j <= totalPoints; j++)`
run `(totalLines + 1).toNat` and `(totalPoints + 1).toNat` times. -/
def setLines (width height xGap yGap : ℚ) : List (List Point) :=
  let oWidth := width + 100
  let oHeight := height + 50
  let totalLines : ℤ := ⌈oWidth / xGap⌉
  let totalPoints : ℤ := ⌈oHeight / yGap⌉
  let xStart := (width - xGap * totalLines) / 2
  let yStart := (height - yGap * totalPoints) / 2
  (List.range (totalLines + 1).toNat).map fun (i : ℕ) =>
    (List.range (totalPoints + 1).toNat).map fun (j : ℕ) =>
      { x := xStart + xGap * (i : ℚ), y := yStart + yGap * (j : ℚ),
        wave := ⟨0, 0⟩, cursor := ⟨0, 0, 0, 0⟩ }

/-- The irrational math library functions used by the engine, abstracted as an
oracle (see the file comment). -/
structure MathOracle where
  cosF : ℚ → ℚ
  sinF : ℚ → ℚ
  hypotF : ℚ → ℚ → ℚ
  atan2F : ℚ → ℚ → ℚ

/-- The per-point body of `movePoints` (lines 198–233): noise-driven wave
displacement, pointer-proximity impulse, spring/friction integration, and the
final clamp of the cursor offset to `±maxCursorMove`. -/
def movePoint (O : MathOracle) (st : NoiseState) (mouse : MouseState) (time : ℚ)
    (p : Point) : Point :=
  let baseMove :=
    Noise.perlin2 st ((p.x + time * config.waveSpeedX) * 0.001)
      ((p.y + time * config.waveSpeedY) * 0.001) * 8
  let autoWaveX := O.sinF (time * config.autoWaveSpeed + p.x * 0.005) * config.autoWaveIntensity
  let autoWaveY := O.cosF (time * config.autoWaveSpeed + p.y * 0.005) * config.autoWaveIntensity
  let waveX := O.cosF baseMove * config.waveAmpX + autoWaveX
  let waveY := O.sinF baseMove * config.waveAmpY + autoWaveY
  let dx := p.x - mouse.sx
  let dy := p.y - mouse.sy
  let dist := O.hypotF dx dy
  let l := max 120 mouse.vs
  let cur1 :=
    if dist < l then
      let s := 1 - dist / l
      let f := O.cosF (dist * 0.005) * s
      { p.cursor with
          vx := p.cursor.vx + O.cosF mouse.a * f * l * mouse.vs * 0.0003,
          vy := p.cursor.vy + O.sinF mouse.a * f * l * mouse.vs * 0.0003 }
    else p.cursor
  let vx := (cur1.vx + (0 - cur1.x) * config.tension) * config.friction
  let vy := (cur1.vy + (0 - cur1.y) * config.tension) * config.friction
  let cx := cur1.x + vx
  let cy := cur1.y + vy
  { p with
      wave := ⟨waveX, waveY⟩,
      cursor :=
        ⟨min config.maxCursorMove (max (-config.maxCursorMove) cx),
         min config.maxCursorMove (max (-config.maxCursorMove) cy), vx, vy⟩ }

/-- `movePoints` (lines 181–235): one simulator step over the whole grid. -/
def movePoints (O : MathOracle) (st : NoiseState) (mouse : MouseState) (time : ℚ)
    (lines : List (List Point)) : List (List Point) :=
  lines.map fun pts => pts.map fun p => movePoint O st mouse time p

/-- A sequence of simulator steps, each with its own pointer snapshot and
timestamp, applied from an initial grid. -/
def applySteps (O : MathOracle) (st : NoiseState) (grid : List (List Point))
    (steps : List (MouseState × ℚ)) : List (List Point) :=
  steps.foldl (fun g s => movePoints O st s.1 s.2 g) grid

/-- The pointer-tracker part of `tick` (lines 283–295): position smoothing,
frame-to-frame displacement, smoothed speed with its clamp at 60, and the
movement angle. -/
def tickMouse (O : MathOracle) (m : MouseState) : MouseState :=
  let sx := m.sx + (m.x - m.sx) * 0.06
  let sy := m.sy + (m.y - m.sy) * 0.06
  let dx := m.x - m.lx
  let dy := m.y - m.ly
  let d := O.hypotF dx dy
  let vs := min 60 (m.vs + (d - m.vs) * 0.06)
  { m with sx := sx, sy := sy, v := d, vs := vs, lx := m.x, ly := m.y,
           a := O.atan2F dy dx }

/-- `Math.round(v * 10) / 10` (line 240); `Math.round` rounds halves toward
positive infinity. -/
def round10 (q : ℚ) : ℚ := (⌊q * 10 + 1 / 2⌋ : ℚ) / 10

/-- `moved` (lines 237–241): a point's drawn position, optionally including the
cursor offset, with both coordinates rounded to one decimal place. -/
def moved (p : Point) (withCursor : Bool) : ℚ × ℚ :=
  let x := p.x + p.wave.x + (if withCursor then p.cursor.x else 0)
  let y := p.y + p.wave.y + (if withCursor then p.cursor.y else 0)
  (round10 x, round10 y)

/-- The drawing-surface operations issued by `drawLines`; the stroke style and
line width settings are presentational and not modelled. -/
inductive DrawCmd where
  | clearRect (width height : ℚ)
  | beginPath
  | moveTo (pos : ℚ × ℚ)
  | lineTo (pos : ℚ × ℚ)
  | stroke
deriving DecidableEq

/-- The body of the per-column callback of `drawLines` (lines 253–268): an
empty column is skipped; otherwise a `moveTo` to the first point without
cursor offset, then a `lineTo` per point (the last one without cursor offset),
and after the last point a `moveTo` restarting the path. -/
def columnCmds (points : List Point) : List DrawCmd :=
  if points.length = 0 then []
  else
    DrawCmd.moveTo (moved (points.getD 0 defaultPoint) false) ::
      (points.mapIdx fun idx p =>
        if idx = points.length - 1 then
          [DrawCmd.lineTo (moved p false),
           DrawCmd.moveTo (moved (points.getD (points.length - 1) defaultPoint) false)]
        else
          [DrawCmd.lineTo (moved p true)]).flatten

/-- `drawLines` (lines 243–272): clear the surface, begin one path, emit every
column's commands in order, and stroke. -/
def drawLines (width height : ℚ) (lines : List (List Point)) : List DrawCmd :=
  DrawCmd.clearRect width height :: DrawCmd.beginPath ::
    (lines.flatMap columnCmds ++ [DrawCmd.stroke])

/-- The state owned by the animation loop: the surface size, the timestamp of
the last accepted frame (`lastTime`, line 274), and the mutable refs. -/
structure EngineState where
  width : ℚ
  height : ℚ
  lastTime : ℚ
  mouse : MouseState
  noise : NoiseState
  lines : List (List Point)

/-- `tick` (lines 275–300): a scheduled frame callback.  If less than 33 ms
elapsed since the last accepted frame the callback only reschedules — no state
changes and no drawing; otherwise it advances the pointer tracker, runs the
simulator, and draws. -/
def tick (O : MathOracle) (st : EngineState) (t : ℚ) : EngineState × List DrawCmd :=
  if t - st.lastTime < 33 then (st, [])
  else
    let mouse := tickMouse O st.mouse
    let lines := movePoints O st.noise mouse t st.lines
    ({ st with lastTime := t, mouse := mouse, lines := lines },
      drawLines st.width st.height lines)

/-- A noise state with empty tables, standing for the freshly allocated arrays
of lines 42–43 before `seed` runs. -/
def noise0 : NoiseState := ⟨fun _ => 0, fun _ => ⟨0, 0, 0⟩⟩

/-- A concrete oracle used to instantiate theorems: its values agree with the
real `Math` functions at the arguments where witnesses evaluate it. -/
def oracle0 : MathOracle where
  cosF := fun _ => 1
  sinF := fun _ => 0
  hypotF := fun dx dy => if dx = 0 then |dy| else if dy = 0 then |dx| else 0
  atan2F := fun _ _ => 0

/-- A concrete engine state over an empty grid. -/
def engine0 : EngineState := ⟨0, 0, 0, initialMouse, noise0, []⟩

/-! ### Helper lemmas about the noise tables -/

set_option maxRecDepth 4096 in
lemma pTable_mem_lt : ∀ n ∈ pTable, n < 256 := by decide

lemma pTable_getD_lt (i : ℕ) : pTable.getD i 0 < 256 := by
  rcases lt_or_ge i pTable.length with h | h
  · rw [List.getD_eq_getElem _ _ h]
    exact pTable_mem_lt _ (List.getElem_mem h)
  · rw [List.getD_eq_default _ _ h]
    norm_num

lemma seedPermVal_le (s : ℚ) (i : ℕ) : seedPermVal s i ≤ 255 := by
  have h1 : pTable.getD i 0 < 2 ^ 8 := by
    have := pTable_getD_lt i
    omega
  have h2 : (if i % 2 = 1 then seedByteLow (mixSeed s)
      else seedByteHigh (mixSeed s)).toNat < 2 ^ 8 := by
    unfold seedByteLow seedByteHigh
    split <;> omega
  have h3 : Nat.xor (pTable.getD i 0)
      ((if i % 2 = 1 then seedByteLow (mixSeed s)
        else seedByteHigh (mixSeed s)).toNat) < 2 ^ 8 := Nat.xor_lt_two_pow h1 h2
  simp only [seedPermVal]
  omega

lemma wrap255_le (n : ℤ) : wrap255 n ≤ 255 := by
  unfold wrap255 toInt32
  omega

lemma seed_perm_le (st : NoiseState) (s : ℚ) (i : ℕ) (hi : i < 512) :
    (Noise.seed st s).perm i ≤ 255 := by
  simp only [Noise.seed, if_pos hi]
  exact seedPermVal_le s (i % 256)

/-- C4: for every integer-aligned input `(x, y)`, the noise sample function
`Noise.perlin2` returns exactly 0 (the cell-relative offsets vanish, so every
corner dot product that survives the interpolation at parameter 0 is a dot
product with the zero offset). -/
theorem sample_zero_at_integers (st : NoiseState) (X Y : ℤ) :
    Noise.perlin2 st (X : ℚ) (Y : ℚ) = 0 := by
  simp only [Noise.perlin2, Int.floor_intCast, sub_self, fade, lerp, Grad.dot2]
  ring

/-- C5: `Noise.seed` is a pure function of its seed argument that overwrites
all 512 entries of both tables, so seeding any two prior states (any seeding
history, any number of repetitions) with the same value yields noise states
whose sample outputs agree on every input. -/
theorem seed_replaces_state (s : ℚ) (st1 st2 : NoiseState) (x y : ℚ) :
    Noise.perlin2 (Noise.seed st1 s) x y = Noise.perlin2 (Noise.seed st2 s) x y := by
  have hperm : ∀ i, i < 512 → (Noise.seed st1 s).perm i = (Noise.seed st2 s).perm i := by
    intro i hi
    simp [Noise.seed, hi]
  have hgrad : ∀ i, i < 512 → (Noise.seed st1 s).gradP i = (Noise.seed st2 s).gradP i := by
    intro i hi
    simp [Noise.seed, hi]
  have hX := wrap255_le ⌊x⌋
  have hY := wrap255_le ⌊y⌋
  have hp1 : (Noise.seed st2 s).perm (wrap255 ⌊y⌋) ≤ 255 :=
    seed_perm_le st2 s _ (by omega)
  have hp2 : (Noise.seed st2 s).perm (wrap255 ⌊y⌋ + 1) ≤ 255 :=
    seed_perm_le st2 s _ (by omega)
  simp only [Noise.perlin2]
  rw [hperm (wrap255 ⌊y⌋) (by omega), hperm (wrap255 ⌊y⌋ + 1) (by omega)]
  rw [hgrad (wrap255 ⌊x⌋ + (Noise.seed st2 s).perm (wrap255 ⌊y⌋)) (by omega),
      hgrad (wrap255 ⌊x⌋ + (Noise.seed st2 s).perm (wrap255 ⌊y⌋ + 1)) (by omega),
      hgrad (wrap255 ⌊x⌋ + 1 + (Noise.seed st2 s).perm (wrap255 ⌊y⌋)) (by omega),
      hgrad (wrap255 ⌊x⌋ + 1 + (Noise.seed st2 s).perm (wrap255 ⌊y⌋ + 1)) (by omega)]

/-- C9: for every table produced by `Noise.seed` and every input, the array
accesses of `Noise.perlin2` stay in bounds: the wrapped cell coordinates are
at most 255, `perm` is read at indices at most 256, and `gradP` at indices at
most 511 — all below the 512-entry table size. -/
theorem sample_accesses_in_bounds (s : ℚ) (st0 : NoiseState) (x y : ℚ) :
    wrap255 ⌊x⌋ ≤ 255 ∧ wrap255 ⌊y⌋ ≤ 255 ∧ wrap255 ⌊y⌋ + 1 ≤ 256 ∧
    wrap255 ⌊x⌋ + (Noise.seed st0 s).perm (wrap255 ⌊y⌋) ≤ 510 ∧
    wrap255 ⌊x⌋ + (Noise.seed st0 s).perm (wrap255 ⌊y⌋ + 1) ≤ 511 ∧
    wrap255 ⌊x⌋ + 1 + (Noise.seed st0 s).perm (wrap255 ⌊y⌋) ≤ 511 ∧
    wrap255 ⌊x⌋ + 1 + (Noise.seed st0 s).perm (wrap255 ⌊y⌋ + 1) ≤ 511 := by
  have hX := wrap255_le ⌊x⌋
  have hY := wrap255_le ⌊y⌋
  have hp1 : (Noise.seed st0 s).perm (wrap255 ⌊y⌋) ≤ 255 :=
    seed_perm_le st0 s _ (by omega)
  have hp2 : (Noise.seed st0 s).perm (wrap255 ⌊y⌋ + 1) ≤ 255 :=
    seed_perm_le st0 s _ (by omega)
  omega

/-! ### Helper lemmas for per-point properties through list reads -/

lemma abs_clamp_le (M c : ℚ) (hM : 0 ≤ M) : |min M (max (-M) c)| ≤ M := by
  rw [abs_le]
  exact ⟨le_min (by linarith) (le_max_left _ _), min_le_left _ _⟩

lemma movePoint_cursor_le (O : MathOracle) (st : NoiseState) (mouse : MouseState)
    (time : ℚ) (p : Point) :
    |(movePoint O st mouse time p).cursor.x| ≤ config.maxCursorMove ∧
    |(movePoint O st mouse time p).cursor.y| ≤ config.maxCursorMove := by
  simp only [movePoint]
  constructor <;> exact abs_clamp_le _ _ (by norm_num [config])

lemma defaultPoint_cursor_le :
    |defaultPoint.cursor.x| ≤ config.maxCursorMove ∧
    |defaultPoint.cursor.y| ≤ config.maxCursorMove := by
  constructor <;> norm_num [defaultPoint, config]

lemma movePoints_cursor_le (O : MathOracle) (st : NoiseState) (mouse : MouseState)
    (time : ℚ) (g : List (List Point)) (i j : ℕ) :
    |(((movePoints O st mouse time g).getD i []).getD j defaultPoint).cursor.x| ≤
      config.maxCursorMove ∧
    |(((movePoints O st mouse time g).getD i []).getD j defaultPoint).cursor.y| ≤
      config.maxCursorMove := by
  unfold movePoints
  rcases lt_or_ge i g.length with hi | hi
  · have h1 : (g.map fun pts => pts.map fun p => movePoint O st mouse time p).getD i [] =
        g[i].map fun p => movePoint O st mouse time p := by
      rw [List.getD_eq_getElem _ _ (by simpa using hi), List.getElem_map]
    rw [h1]
    rcases lt_or_ge j g[i].length with hj | hj
    · have h2 : (g[i].map fun p => movePoint O st mouse time p).getD j defaultPoint =
          movePoint O st mouse time g[i][j] := by
        rw [List.getD_eq_getElem _ _ (by simpa using hj), List.getElem_map]
      rw [h2]
      exact movePoint_cursor_le O st mouse time _
    · rw [List.getD_eq_default _ _ (by simpa using hj)]
      exact defaultPoint_cursor_le
  · have h1 : (g.map fun pts => pts.map fun p => movePoint O st mouse time p).getD i [] =
        [] := List.getD_eq_default _ _ (by simpa using hi)
    rw [h1]
    simp only [List.getD_nil]
    exact defaultPoint_cursor_le

/-- C2: after every simulator step of any step sequence started from the
freshly built grid, every grid point's cursor offset is clamped:
`|cursor.x| ≤ maxCursorMove` and `|cursor.y| ≤ maxCursorMove`, for any pointer
state, any oracle, and any surface/gap parameters.  Points are read with
defaulted indexing, so the bound holds at every index. -/
theorem cursor_offset_clamped (O : MathOracle) (st : NoiseState) (w h gx gy : ℚ)
    (prev : List (MouseState × ℚ)) (lastStep : MouseState × ℚ) (i j : ℕ) :
    |((((applySteps O st (setLines w h gx gy) (prev ++ [lastStep])).getD i
        []).getD j defaultPoint).cursor.x)| ≤ config.maxCursorMove ∧
    |((((applySteps O st (setLines w h gx gy) (prev ++ [lastStep])).getD i
        []).getD j defaultPoint).cursor.y)| ≤ config.maxCursorMove := by
  unfold applySteps
  rw [List.foldl_append]
  simp only [List.foldl_cons, List.foldl_nil]
  exact movePoints_cursor_le O st lastStep.1 lastStep.2 _ i j

lemma abs_wave_le (a b amp intensity : ℚ) (ha : |a| ≤ 1) (hb : |b| ≤ 1)
    (hamp : 0 ≤ amp) (hint : 0 ≤ intensity) :
    |a * amp + b * intensity| ≤ amp + intensity := by
  have h1 := abs_le.mp ha
  have h2 := abs_le.mp hb
  rw [abs_le]
  constructor <;> nlinarith

/-- C10: after a simulator step, every point's wave offset is bounded by the
configured amplitude plus the ambient-wave intensity per axis, for every
elapsed time, pointer state, and noise sample value, given only that the
cosine/sine oracle is bounded by 1 in absolute value (as `Math.cos`/`Math.sin`
are). -/
theorem wave_offset_bounded (O : MathOracle) (hc : ∀ t, |O.cosF t| ≤ 1)
    (hs : ∀ t, |O.sinF t| ≤ 1) (st : NoiseState) (mouse : MouseState)
    (time : ℚ) (p : Point) :
    |(movePoint O st mouse time p).wave.x| ≤ config.waveAmpX + config.autoWaveIntensity ∧
    |(movePoint O st mouse time p).wave.y| ≤ config.waveAmpY + config.autoWaveIntensity := by
  simp only [movePoint]
  constructor
  · exact abs_wave_le _ _ _ _ (hc _) (hs _) (by norm_num [config]) (by norm_num [config])
  · exact abs_wave_le _ _ _ _ (hs _) (hc _) (by norm_num [config]) (by norm_num [config])

/-- C10 witness: the bound evaluated at a concrete oracle, point and time. -/
theorem wave_offset_bounded_inst :
    |(movePoint oracle0 noise0 initialMouse 0 defaultPoint).wave.x| ≤
      config.waveAmpX + config.autoWaveIntensity ∧
    |(movePoint oracle0 noise0 initialMouse 0 defaultPoint).wave.y| ≤
      config.waveAmpY + config.autoWaveIntensity :=
  wave_offset_bounded oracle0 (fun t => by norm_num [oracle0])
    (fun t => by norm_num [oracle0]) noise0 initialMouse 0 defaultPoint

/-- C7: a scheduled frame callback arriving less than the minimum interval
(33 ms) after the last accepted frame only reschedules: the pointer tracker is
not advanced, the simulator does not run, nothing is drawn, and the whole
engine state is returned unchanged. -/
theorem frame_throttle_skip (O : MathOracle) (st : EngineState) (t : ℚ)
    (h : t - st.lastTime < 33) : tick O st t = (st, []) := by
  simp only [tick, if_pos h]

/-- C7 witness: a callback at time 0 with the last accepted frame also at
time 0 is dropped. -/
theorem frame_throttle_skip_inst : tick oracle0 engine0 0 = (engine0, []) :=
  frame_throttle_skip oracle0 engine0 0 (by norm_num [engine0])

/-! ### The grid rebuild (C1, C3) -/

lemma ceil_pad_pos (w gx : ℚ) (hw : 0 ≤ w) (hgx : 0 < gx) (c : ℚ) (hc : 0 < c) :
    0 < ⌈(w + c) / gx⌉ := by
  rw [Int.ceil_pos]
  positivity

/-- C1: for nonnegative surface dimensions and positive gaps, the rebuilt grid
has exactly `⌈(w + 100)/gx⌉ + 1` columns (the horizontal padding is 100) of
exactly `⌈(h + 50)/gy⌉ + 1` points each (the vertical padding is 50); the
point at indices `(i, j)` sits on the regular lattice
`(xStart + gx·i, yStart + gy·j)` with wave and cursor offsets zeroed, and the
first and last lattice coordinates on each axis are symmetric about the
centre of the visible surface. -/
theorem grid_rebuild_counts (w h gx gy : ℚ) (hw : 0 ≤ w) (hh : 0 ≤ h)
    (hgx : 0 < gx) (hgy : 0 < gy) :
    ((setLines w h gx gy).length : ℤ) = ⌈(w + 100) / gx⌉ + 1 ∧
    (∀ col ∈ setLines w h gx gy, (col.length : ℤ) = ⌈(h + 50) / gy⌉ + 1) ∧
    (∀ i j : ℕ, (i : ℤ) ≤ ⌈(w + 100) / gx⌉ → (j : ℤ) ≤ ⌈(h + 50) / gy⌉ →
      ((setLines w h gx gy).getD i []).getD j defaultPoint =
        ⟨(w - gx * ⌈(w + 100) / gx⌉) / 2 + gx * i,
         (h - gy * ⌈(h + 50) / gy⌉) / 2 + gy * j, ⟨0, 0⟩, ⟨0, 0, 0, 0⟩⟩) ∧
    ((w - gx * ⌈(w + 100) / gx⌉) / 2 + gx * 0) +
      ((w - gx * ⌈(w + 100) / gx⌉) / 2 + gx * ⌈(w + 100) / gx⌉) = w ∧
    ((h - gy * ⌈(h + 50) / gy⌉) / 2 + gy * 0) +
      ((h - gy * ⌈(h + 50) / gy⌉) / 2 + gy * ⌈(h + 50) / gy⌉) = h := by
  have hL : 0 < ⌈(w + 100) / gx⌉ := ceil_pad_pos w gx hw hgx 100 (by norm_num)
  have hP : 0 < ⌈(h + 50) / gy⌉ := ceil_pad_pos h gy hh hgy 50 (by norm_num)
  refine ⟨?_, ?_, ?_, by ring, by ring⟩
  · simp only [setLines, List.length_map, List.length_range]
    omega
  · intro col hcol
    simp only [setLines, List.mem_map, List.mem_range] at hcol
    obtain ⟨i, hi, rfl⟩ := hcol
    simp only [List.length_map, List.length_range]
    omega
  · intro i j hi hj
    have hi' : i < (⌈(w + 100) / gx⌉ + 1).toNat := by omega
    have hj' : j < (⌈(h + 50) / gy⌉ + 1).toNat := by omega
    simp [setLines, List.getD, List.getElem?_range hi', List.getElem?_range hj']

lemma ceil_420_16 : ⌈((320 : ℚ) + 100) / 16⌉ = 27 := by
  rw [Int.ceil_eq_iff] <;> norm_num

lemma ceil_250_40 : ⌈((200 : ℚ) + 50) / 40⌉ = 7 := by
  rw [Int.ceil_eq_iff] <;> norm_num

/-- C1 witness: a 320×200 surface with gaps 16 and 40 yields 28 columns, and
the point at column 3, row 2 sits at `(-8, 40)` with zero offsets. -/
theorem grid_rebuild_counts_inst :
    ((setLines 320 200 16 40).length : ℤ) = 28 ∧
    ((setLines 320 200 16 40).getD 3 []).getD 2 defaultPoint =
      ⟨-8, 40, ⟨0, 0⟩, ⟨0, 0, 0, 0⟩⟩ := by
  have h := grid_rebuild_counts 320 200 16 40 (by norm_num) (by norm_num)
    (by norm_num) (by norm_num)
  constructor
  · rw [h.1, ceil_420_16]
    norm_num
  · rw [h.2.2.1 3 2 (by rw [ceil_420_16]; norm_num) (by rw [ceil_250_40]; norm_num),
        ceil_420_16, ceil_250_40]
    norm_num [Point.mk.injEq]

/-- C3 counterexample: with zero surface dimensions (and the component's
positive gaps 16 and 40) the rebuilt grid is NOT empty — the fixed paddings
(+100, +50) make it 8 columns wide — refuting the claim that a zero surface
dimension yields zero columns. -/
theorem empty_grid_policy_cex :
    (setLines 0 0 16 40).length = 8 ∧ setLines 0 0 16 40 ≠ [] := by
  have hc : ⌈((0 : ℚ) + 100) / 16⌉ = 7 := by
    rw [Int.ceil_eq_iff] <;> norm_num
  have hlen : (setLines 0 0 16 40).length = 8 := by
    simp only [setLines, List.length_map, List.length_range, hc]
    rfl
  refine ⟨hlen, fun hnil => ?_⟩
  rw [hnil] at hlen
  simp at hlen

/-- C3 (amended): rebuilding with a negative horizontal gap whose magnitude is
at most the padded width yields an empty grid (zero columns), and both the
simulator and the renderer run on the empty grid as no-ops (the simulator
returns the empty grid, the renderer emits no path commands).  A zero surface
dimension, by contrast, still yields a non-empty grid (see the
counterexample), and a zero gap is outside the model (in JavaScript
`Math.ceil(width / 0)` is `Infinity` and the construction loop does not
terminate, which is not an empty grid either). -/
theorem empty_grid_neg_gap (w h gx gy wd ht t : ℚ) (O : MathOracle)
    (st : NoiseState) (m : MouseState) (hgx : gx < 0) (hw : -gx ≤ w + 100) :
    setLines w h gx gy = [] ∧
    movePoints O st m t [] = [] ∧
    drawLines wd ht [] = [DrawCmd.clearRect wd ht, DrawCmd.beginPath, DrawCmd.stroke] := by
  refine ⟨?_, rfl, rfl⟩
  have h1 : (w + 100) / gx ≤ -1 := by
    rw [div_le_iff_of_neg hgx]
    linarith
  have h2 : ⌈(w + 100) / gx⌉ ≤ -1 := by
    rw [Int.ceil_le]
    exact_mod_cast h1
  have h3 : (⌈(w + 100) / gx⌉ + 1).toNat = 0 := by omega
  simp only [setLines, h3]
  rfl

/-- C3 (amended) witness: gap `-16` over a zero-sized surface gives the empty
grid, on which one simulator step and one renderer pass are no-ops. -/
theorem empty_grid_neg_gap_inst :
    setLines 0 0 (-16) 40 = [] ∧
    movePoints oracle0 noise0 initialMouse 0 [] = [] ∧
    drawLines 1 1 [] = [DrawCmd.clearRect 1 1, DrawCmd.beginPath, DrawCmd.stroke] :=
  empty_grid_neg_gap 0 0 (-16) 40 1 1 0 oracle0 noise0 initialMouse
    (by norm_num) (by norm_num)

/-! ### The pointer tracker (C6) -/

lemma tickMouse_last_eq (O : MathOracle) (m : MouseState) :
    (tickMouse O m).lx = (tickMouse O m).x ∧ (tickMouse O m).ly = (tickMouse O m).y := by
  simp [tickMouse]

lemma tickMouse_vs_decay (O : MathOracle) (hO : O.hypotF 0 0 = 0) (m : MouseState)
    (h1 : m.lx = m.x) (h2 : m.ly = m.y) : |(tickMouse O m).vs| ≤ |m.vs| := by
  have hd : O.hypotF (m.x - m.lx) (m.y - m.ly) = 0 := by
    rw [h1, h2, sub_self, sub_self, hO]
  simp only [tickMouse, hd]
  have he : m.vs + (0 - m.vs) * 0.06 = 47 / 50 * m.vs := by ring
  rw [he]
  rcases le_or_lt 0 m.vs with hp | hn
  · have hmin : 0 ≤ min 60 (47 / 50 * m.vs) := le_min (by norm_num) (by nlinarith)
    rw [abs_of_nonneg hmin, abs_of_nonneg hp]
    calc min 60 (47 / 50 * m.vs) ≤ 47 / 50 * m.vs := min_le_right _ _
      _ ≤ m.vs := by nlinarith
  · have hneg : 47 / 50 * m.vs < 0 := by nlinarith
    rw [min_eq_right (by linarith : 47 / 50 * m.vs ≤ 60), abs_of_neg hn, abs_of_neg hneg]
    nlinarith

/-- C6 (amended): from any pointer-tracker state, the smoothed speed decays
monotonically toward 0 under repeated `advance` with no intervening input
from the second call on: after one advance the recorded last position equals
the current position, and from then on every further advance leaves
`|smoothedSpeed|` no larger.  (As stated — including the first call from an
arbitrary state — the claim is refuted by `advance_decay_cex`: a pending
input displacement makes the first advance increase the smoothed speed.) -/
theorem advance_decay_after_first (O : MathOracle) (hO : O.hypotF 0 0 = 0)
    (m : MouseState) (k : ℕ) :
    |((tickMouse O)^[k + 2] m).vs| ≤ |((tickMouse O)^[k + 1] m).vs| := by
  have e2 : (tickMouse O)^[k + 2] m = tickMouse O ((tickMouse O)^[k + 1] m) :=
    Function.iterate_succ_apply' (tickMouse O) (k + 1) m
  have e1 : (tickMouse O)^[k + 1] m = tickMouse O ((tickMouse O)^[k] m) :=
    Function.iterate_succ_apply' (tickMouse O) k m
  rw [e2, e1]
  exact tickMouse_vs_decay O hO _ (tickMouse_last_eq O _).1 (tickMouse_last_eq O _).2

/-- C6 counterexample: from the state with a pending input displacement
(position 100, last position 0) and smoothed speed 0, one `advance` moves the
smoothed speed to 6, strictly farther from 0 — the claimed monotone decay
fails on the first call from an arbitrary state.  The oracle agrees with
`Math.hypot` at both arguments it is evaluated on. -/
theorem advance_decay_cex :
    oracle0.hypotF 0 0 = 0 ∧ oracle0.hypotF 100 0 = 100 ∧
    ¬ |(tickMouse oracle0 ⟨100, 0, 0, 0, 0, 0, 0, 0, 0, true⟩).vs| ≤
        |(MouseState.mk 100 0 0 0 0 0 0 0 0 true).vs| := by
  refine ⟨by norm_num [oracle0], by norm_num [oracle0], ?_⟩
  simp only [tickMouse, oracle0]
  norm_num [min_def]

/-- C6 (amended) witness: the second advance from the initial mouse state is
no farther from 0 than the first. -/
theorem advance_decay_after_first_inst :
    |((tickMouse oracle0)^[2] initialMouse).vs| ≤
      |((tickMouse oracle0)^[1] initialMouse).vs| :=
  advance_decay_after_first oracle0 (by norm_num [oracle0]) initialMouse 0

/-! ### The renderer (C8) -/

lemma moved_true (p : Point) :
    moved p true = (round10 (p.x + p.wave.x + p.cursor.x),
      round10 (p.y + p.wave.y + p.cursor.y)) := by
  simp [moved]

lemma moved_false (p : Point) :
    moved p false = (round10 (p.x + p.wave.x), round10 (p.y + p.wave.y)) := by
  simp [moved]

lemma flatten_map_singleton {α β : Type} (l : List α) (f : α → β) :
    (l.map fun a => [f a]).flatten = l.map f := by
  induction l with
  | nil => rfl
  | cons a l ih => simp [ih]

lemma mapIdx_congr_map {α β : Type} (l : List α) :
    ∀ (f : ℕ → α → β) (g : α → β),
      (∀ i, i < l.length → ∀ a, f i a = g a) → l.mapIdx f = l.map g := by
  induction l with
  | nil => intro f g h; rfl
  | cons a l ih =>
    intro f g h
    rw [List.mapIdx_cons, List.map_cons, h 0 (by simp) a,
        ih (fun i b => f (i + 1) b) g (fun i hi b => h (i + 1) (by simpa using hi) b)]

lemma columnCmds_concat (ys : List Point) (z : Point) :
    columnCmds (ys ++ [z]) =
      DrawCmd.moveTo (moved ((ys ++ [z]).getD 0 defaultPoint) false) ::
        (ys.map fun p => DrawCmd.lineTo (moved p true)) ++
        [DrawCmd.lineTo (moved z false), DrawCmd.moveTo (moved z false)] := by
  unfold columnCmds
  rw [if_neg (by simp)]
  congr 1
  rw [List.mapIdx_append_one]
  have hmap : ys.mapIdx (fun idx p =>
      if idx = (ys ++ [z]).length - 1 then
        [DrawCmd.lineTo (moved p false),
         DrawCmd.moveTo (moved ((ys ++ [z]).getD ((ys ++ [z]).length - 1) defaultPoint) false)]
      else [DrawCmd.lineTo (moved p true)]) =
      ys.map fun p => [DrawCmd.lineTo (moved p true)] := by
    apply mapIdx_congr_map
    intro i hi a
    rw [if_neg (by simp; omega)]
  rw [hmap]
  have hlast : (ys ++ [z]).getD ((ys ++ [z]).length - 1) defaultPoint = z := by
    rw [show (ys ++ [z]).length - 1 = ys.length by simp]
    rw [List.getD_append_right ys [z] defaultPoint ys.length (le_refl _)]
    simp
  rw [if_pos (by simp), hlast]
  simp [flatten_map_singleton]

/-- C8: the path issued for every drawn column: a `moveTo` at the first
point's undisplaced position, then for each point except the last a `lineTo`
at base + wave + cursor, each coordinate rounded to one decimal place; the
last point's `lineTo` is issued at base + wave only (no cursor offset), also
rounded; and the path is restarted there with a `moveTo`, so the next
column's commands begin a fresh subpath.  Across the grid, `drawLines`
concatenates the columns' command blocks in order inside one cleared,
stroked path. -/
theorem renderer_column_path (wd ht : ℚ) (pre post : List (List Point))
    (pts : List Point) (hne : pts ≠ []) :
    drawLines wd ht (pre ++ pts :: post) =
      DrawCmd.clearRect wd ht :: DrawCmd.beginPath ::
        (pre.flatMap columnCmds ++ (columnCmds pts ++ post.flatMap columnCmds) ++
          [DrawCmd.stroke]) ∧
    columnCmds pts =
      DrawCmd.moveTo (round10 ((pts.getD 0 defaultPoint).x + (pts.getD 0 defaultPoint).wave.x),
          round10 ((pts.getD 0 defaultPoint).y + (pts.getD 0 defaultPoint).wave.y)) ::
        (pts.dropLast.map fun p =>
          DrawCmd.lineTo (round10 (p.x + p.wave.x + p.cursor.x),
            round10 (p.y + p.wave.y + p.cursor.y))) ++
        [DrawCmd.lineTo (round10 ((pts.getLast hne).x + (pts.getLast hne).wave.x),
            round10 ((pts.getLast hne).y + (pts.getLast hne).wave.y)),
         DrawCmd.moveTo (round10 ((pts.getLast hne).x + (pts.getLast hne).wave.x),
            round10 ((pts.getLast hne).y + (pts.getLast hne).wave.y))] := by
  constructor
  · simp [drawLines, List.flatMap_append, List.append_assoc]
  · obtain ⟨ys, z, rfl⟩ : ∃ ys z, pts = ys ++ [z] :=
      ⟨pts.dropLast, pts.getLast hne, (List.dropLast_append_getLast hne).symm⟩
    rw [columnCmds_concat]
    simp [moved_true, moved_false, List.dropLast_concat, List.getLast_concat]

/-- Concrete points used to instantiate the renderer theorem. -/
def pointA : Point := ⟨1, 2, ⟨0, 0⟩, ⟨1/4, 1/5, 0, 0⟩⟩

/-- Second concrete point used to instantiate the renderer theorem. -/
def pointB : Point := ⟨3, 4, ⟨0, 0⟩, ⟨1/2, 1/2, 0, 0⟩⟩

/-- C8 witness: for the column `[pointA, pointB]` the first (intermediate)
point is issued displaced by its cursor offset and rounded, the last without
its cursor offset, and the path restarts there. -/
theorem renderer_column_path_inst :
    columnCmds [pointA, pointB] =
      [DrawCmd.moveTo (1, 2), DrawCmd.lineTo (13/10, 11/5),
       DrawCmd.lineTo (3, 4), DrawCmd.moveTo (3, 4)] := by
  have h := (renderer_column_path 1 1 [] [] [pointA, pointB] (by simp)).2
  rw [h]
  norm_num [pointA, pointB, round10, defaultPoint, List.getLast]
